import Mathlib

/-!
Verification of the tool-invocation and conversation-memory subsystem of the
core-network-devops-agent repository, as a shallow embedding of
`framework/tool_base.py`, `framework/memory.py` and `core_agent.py`.

Python dictionaries are modelled as insertion-ordered association lists
(`List (String × α)`) with first-match lookup and overwrite-in-place insert,
matching CPython dict semantics.  Python runtime values that flow through
parameter maps are modelled by `PyVal`; note that in Python `bool` is a
subclass of `int`, which `isinstance` checks reflect.  Wall-clock reads
(`datetime.now()`) are threaded explicitly as integer timestamps.
-/

set_option autoImplicit false

universe u

/-- Python runtime values appearing in tool parameter maps.  `vOther` stands
for any other object (floats, lists, dicts, ...), distinguished by a tag. -/
inductive PyVal where
  | vStr (s : String)
  | vInt (n : Int)
  | vBool (b : Bool)
  | vOther (tag : Nat)
deriving DecidableEq, Repr

/-- `isinstance(v, str)`. -/
def isinstanceStr : PyVal → Bool
  | .vStr _ => true
  | _ => false

/-- `isinstance(v, int)` — true for `bool` values as well, since Python's
`bool` is a subclass of `int`. -/
def isinstanceInt : PyVal → Bool
  | .vInt _ => true
  | .vBool _ => true
  | _ => false

/-- `isinstance(v, bool)`. -/
def isinstanceBool : PyVal → Bool
  | .vBool _ => true
  | _ => false

/-- Python `v in l` for `l : List[str]`: membership by `==`; only a `str`
value can compare equal to a `str` element. -/
def pyInStrList (v : PyVal) (l : List String) : Bool :=
  match v with
  | .vStr s => l.contains s
  | _ => false

/-- A Python dict of `PyVal`s. -/
abbrev Ctx := List (String × PyVal)

/-- Dict lookup: first match (keys are unique in a real dict). -/
def dictGet {α : Type u} (k : String) : List (String × α) → Option α
  | [] => none
  | kv :: rest => if kv.1 = k then some kv.2 else dictGet k rest

/-- Dict assignment `d[k] = v`: overwrite in place if the key is present
(CPython keeps the original insertion position), else append. -/
def dictInsert {α : Type u} (d : List (String × α)) (k : String) (v : α) :
    List (String × α) :=
  if (dictGet k d).isSome then
    d.map (fun kv => if kv.1 = k then (k, v) else kv)
  else d ++ [(k, v)]

/-- Keys of a dict in insertion order. -/
def dictKeys {α : Type u} (d : List (String × α)) : List String :=
  d.map Prod.fst

/-- Python list repr of a `List[str]`, as produced by an f-string. -/
def pyStrListRepr (l : List String) : String :=
  "[" ++ String.intercalate ", " (l.map (fun s => "\x27" ++ s ++ "\x27")) ++ "]"

/-- `ToolParameter` (tool_base.py). -/
structure ToolParameter where
  name : String
  type : String
  description : String := ""
  required : Bool := false
  default : Option PyVal := none
  enum : Option (List String) := none
deriving DecidableEq, Repr

/-- `ToolSpec` (tool_base.py): name, description, ordered parameter list. -/
structure ToolSpec where
  name : String
  description : String := ""
  parameters : List ToolParameter := []
deriving DecidableEq, Repr

/-- The at-most-one type error the `if/elif/elif` chain of
`Tool.validate_parameters` produces for a supplied value. -/
def typeError (p : ToolParameter) (v : PyVal) : List String :=
  if p.type = "string" ∧ isinstanceStr v = false then
    [s!"Parameter {p.name} must be a string"]
  else if p.type = "integer" ∧ isinstanceInt v = false then
    [s!"Parameter {p.name} must be an integer"]
  else if p.type = "boolean" ∧ isinstanceBool v = false then
    [s!"Parameter {p.name} must be a boolean"]
  else []

/-- The enum error of `Tool.validate_parameters`: `if param.enum and value
not in param.enum` — skipped when `enum` is `None` or the empty list (both
falsy in Python). -/
def enumError (p : ToolParameter) (v : PyVal) : List String :=
  match p.enum with
  | some l =>
      if l ≠ [] ∧ pyInStrList v l = false then
        [s!"Parameter {p.name} must be one of: " ++ pyStrListRepr l]
      else []
  | none => []

/-- The "missing required parameter" errors accumulated by the first loop of
`Tool.validate_parameters`. -/
def requiredErrors (spec : ToolSpec) (parameters : Ctx) : List String :=
  (spec.parameters.filter (fun p => p.required)).filterMap
    (fun p =>
      if (dictGet p.name parameters).isNone then
        some s!"Missing required parameter: {p.name}"
      else none)

/-- One iteration of the second loop of `Tool.validate_parameters`,
accumulating the `validated` dict and the `errors` list. -/
def validateStep (parameters : Ctx) (acc : Ctx × List String)
    (p : ToolParameter) : Ctx × List String :=
  match dictGet p.name parameters with
  | some v => (dictInsert acc.1 p.name v, acc.2 ++ typeError p v ++ enumError p v)
  | none =>
      match p.default with
      | some d => (dictInsert acc.1 p.name d, acc.2)
      | none => acc

/-- `Tool.validate_parameters` (tool_base.py, lines 156-192): accumulate
missing-required errors, then walk the declared parameters validating the
supplied values and injecting non-null defaults; raise a `ValueError` joining
all errors if any accumulated, else return the validated dict. -/
def validate_parameters (spec : ToolSpec) (parameters : Ctx) :
    Except String Ctx :=
  let res := spec.parameters.foldl (validateStep parameters)
    ([], requiredErrors spec parameters)
  if res.2 = [] then Except.ok res.1
  else Except.error
    ("Parameter validation failed: " ++ String.intercalate "; " res.2)

/-- The per-parameter errors contributed by the second loop, in spec order. -/
def presentErrors (parameters : Ctx) : List ToolParameter → List String
  | [] => []
  | p :: ps =>
      (match dictGet p.name parameters with
       | some v => typeError p v ++ enumError p v
       | none => []) ++ presentErrors parameters ps

/-- All violations `Tool.validate_parameters` accumulates, in the order it
accumulates them. -/
def validationErrors (spec : ToolSpec) (parameters : Ctx) : List String :=
  requiredErrors spec parameters ++ presentErrors parameters spec.parameters

/-- First declared parameter with a given name. -/
def findParam (k : String) : List ToolParameter → Option ToolParameter
  | [] => none
  | p :: ps => if p.name = k then some p else findParam k ps

/-- The entries the second loop of `validate_parameters` contributes for a
parameter list, in order: the supplied value when present, else the non-null
default, else nothing. -/
def injectedEntries (parameters : Ctx) : List ToolParameter → Ctx
  | [] => []
  | p :: ps =>
      (match dictGet p.name parameters with
       | some v => [(p.name, v)]
       | none =>
          match p.default with
          | some d => [(p.name, d)]
          | none => []) ++ injectedEntries parameters ps

/-- `ToolResult` (tool_base.py).  `execution_time_ms` and clock reads are
modelled as integer milliseconds; `__post_init__` stamps `timestamp` with the
current time when it was not supplied, which the construction sites below
make explicit. -/
structure ToolResult where
  success : Bool
  data : Option Ctx := none
  error : Option String := none
  metadata : Option Ctx := none
  execution_time_ms : Option Int := none
  timestamp : Option Int := none
deriving DecidableEq, Repr

/-- `Tool.execute_with_validation` (tool_base.py, lines 194-227).  The tool
body `execute` is a function from the validated parameter dict to either a
`ToolResult` or a raised exception message (`Except.error`).  `start` is the
wall-clock read taken just before validation and `finish` the read taken when
execution finishes (normally or by exception); the `try/except` turns both a
validation `ValueError` and an exception from `execute` into a failed
`ToolResult` carrying the message and the measured duration. -/
def execute_with_validation (spec : ToolSpec)
    (execute : Ctx → Except String ToolResult)
    (parameters : Ctx) (start finish : Int) : ToolResult :=
  match validate_parameters spec parameters with
  | Except.ok validated =>
      match execute validated with
      | Except.ok result =>
          { result with execution_time_ms := some (finish - start) }
      | Except.error e =>
          { success := false, error := some e,
            execution_time_ms := some (finish - start),
            timestamp := some finish }
  | Except.error e =>
      { success := false, error := some e,
        execution_time_ms := some (finish - start),
        timestamp := some finish }

/-- `ToolResult.to_dict` (tool_base.py, lines 30-39): the plain map sent back
to the orchestration loop; `metadata` falls back to `{}`. -/
structure ResultDict where
  success : Bool
  data : Option Ctx := none
  error : Option String := none
  metadata : Ctx := []
  execution_time_ms : Option Int := none
  timestamp : Option Int := none
deriving DecidableEq, Repr

def ToolResult.to_dict (r : ToolResult) : ResultDict :=
  { success := r.success, data := r.data, error := r.error,
    metadata := r.metadata.getD [],
    execution_time_ms := r.execution_time_ms, timestamp := r.timestamp }

/-- `MessageRole` (memory.py): a string-valued enum. -/
inductive MessageRole where
  | user
  | assistant
  | system
  | tool
deriving DecidableEq, Repr

/-- `role.value`. -/
def MessageRole.value : MessageRole → String
  | .user => "user"
  | .assistant => "assistant"
  | .system => "system"
  | .tool => "tool"

/-- `MessageRole(s)`: parse a role string; `none` models the `ValueError`
raised for an unrecognized string. -/
def MessageRole.ofValue (s : String) : Option MessageRole :=
  if s = "user" then some .user
  else if s = "assistant" then some .assistant
  else if s = "system" then some .system
  else if s = "tool" then some .tool
  else none

/-- `ConversationMessage` (memory.py).  `tool_results` holds the per-tool
result dicts the orchestration loop attaches to assistant messages. -/
structure ConversationMessage where
  role : MessageRole
  content : String
  timestamp : Int
  metadata : Option Ctx := none
  tool_results : Option (List (String × ResultDict)) := none
deriving DecidableEq, Repr

/-- `ConversationMemory` (memory.py): configuration plus the three mutable
fields `_messages`, `_context`, `_summary`.  The `max_messages` and
`retention_hours` configuration values (defaults 100 and 24) are modelled as
naturals. -/
structure ConversationMemory where
  max_messages : Nat := 100
  retention_hours : Nat := 24
  enable_summarization : Bool := true
  messages : List ConversationMessage := []
  context : Ctx := []
  summary : Option String := none
deriving DecidableEq, Repr

/-- Python's tail slice `l[-k:]`.  For `k > 0` it keeps the last
`min k l.length` elements; for `k = 0` it is `l[0:]`, the whole list. -/
def pySliceLast {α : Type u} (l : List α) (k : Nat) : List α :=
  if k = 0 then l else l.drop (l.length - k)

/-- The retention half of `ConversationMemory._cleanup_messages`: when
`retention_hours > 0`, keep only messages with
`timestamp >= now - timedelta(hours=retention_hours)` (timestamps in
seconds). -/
def retentionKeep (now : Int) (hours : Nat) (l : List ConversationMessage) :
    List ConversationMessage :=
  if 0 < hours then
    l.filter (fun m => decide (now - 3600 * (hours : Int) ≤ m.timestamp))
  else l

/-- `ConversationMemory._cleanup_messages` (memory.py, lines 201-216):
retention filter, then keep the tail slice `[-max_messages:]` when the count
still exceeds `max_messages`. -/
def cleanup_messages (now : Int) (mem : ConversationMemory) :
    ConversationMemory :=
  let kept := retentionKeep now mem.retention_hours mem.messages
  let kept2 :=
    if mem.max_messages < kept.length then pySliceLast kept mem.max_messages
    else kept
  { mem with messages := kept2 }

/-- `ConversationMemory.add_message` (memory.py, lines 87-121): append a
message stamped with the current time, then run eviction.  The role is taken
already normalized to the enum (string roles are parsed with
`MessageRole.ofValue` by the Python code). -/
def add_message (now : Int) (mem : ConversationMemory) (role : MessageRole)
    (content : String) (metadata : Option Ctx)
    (tool_results : Option (List (String × ResultDict))) :
    ConversationMemory :=
  cleanup_messages now
    { mem with
        messages := mem.messages ++
          [{ role := role, content := content, timestamp := now,
             metadata := metadata, tool_results := tool_results }] }

/-- `ConversationMemory.get_messages` (memory.py, lines 123-153): filters in
the order role, since, limit; `if limit:` means a `None` or zero limit is not
applied. -/
def get_messages (mem : ConversationMemory) (limit : Option Nat)
    (role_filter : Option MessageRole) (since : Option Int) :
    List ConversationMessage :=
  let ms := mem.messages
  let ms := match role_filter with
    | some r => ms.filter (fun m => decide (m.role = r))
    | none => ms
  let ms := match since with
    | some t => ms.filter (fun m => decide (t ≤ m.timestamp))
    | none => ms
  match limit with
  | some n => if 0 < n then pySliceLast ms n else ms
  | none => ms

/-- The role and since filters of `get_messages`, stated independently as the
"all messages that pass the filters" reading. -/
def roleSinceFiltered (mem : ConversationMemory)
    (role_filter : Option MessageRole) (since : Option Int) :
    List ConversationMessage :=
  mem.messages.filter (fun m =>
    (match role_filter with
     | some r => decide (m.role = r)
     | none => true) &&
    (match since with
     | some t => decide (t ≤ m.timestamp)
     | none => true))

/-- `ConversationMemory.get_recent_messages` (memory.py, lines 173-175):
`self._messages[-count:] if self._messages else []`. -/
def get_recent_messages (mem : ConversationMemory) (count : Nat) :
    List ConversationMessage :=
  if mem.messages = [] then [] else pySliceLast mem.messages count

/-- `ConversationMemory.update_context` (memory.py, lines 163-166):
`self._context.update(context)` — merge, overwriting existing keys. -/
def update_context (mem : ConversationMemory) (context : Ctx) :
    ConversationMemory :=
  { mem with
      context := context.foldl (fun d kv => dictInsert d kv.1 kv.2) mem.context }

/-- `ConversationMemory.clear_context` (memory.py, lines 168-171). -/
def clear_context (mem : ConversationMemory) : ConversationMemory :=
  { mem with context := [] }

/-- `ConversationMemory.set_summary` (memory.py, lines 196-199). -/
def set_summary (mem : ConversationMemory) (s : String) : ConversationMemory :=
  { mem with summary := some s }

/-- `ConversationMemory.clear` (memory.py, lines 185-190): empties messages,
context and summary together. -/
def ConversationMemory.clear (mem : ConversationMemory) : ConversationMemory :=
  { mem with messages := [], context := [], summary := none }

/-- `ConversationMessage.to_dict` (memory.py, lines 32-40).  The ISO-8601
timestamp string produced by `isoformat()` round-trips losslessly through
`fromisoformat()`, so the serialized timestamp is modelled by the timestamp
value itself; `metadata` and `tool_results` are serialized as
`self.metadata or {}` / `self.tool_results or {}`. -/
structure SavedMessage where
  role : String
  content : String
  timestamp : Int
  metadata : Ctx
  tool_results : List (String × ResultDict)
deriving DecidableEq, Repr

def ConversationMessage.to_dict (m : ConversationMessage) : SavedMessage :=
  { role := m.role.value, content := m.content, timestamp := m.timestamp,
    metadata := m.metadata.getD [], tool_results := m.tool_results.getD [] }

/-- `ConversationMessage.from_dict` (memory.py, lines 42-51): `none` models
the `ValueError` that `MessageRole(data['role'])` raises on an unknown role
string. -/
def ConversationMessage.from_dict (d : SavedMessage) :
    Option ConversationMessage :=
  match MessageRole.ofValue d.role with
  | some r =>
      some { role := r, content := d.content, timestamp := d.timestamp,
             metadata := some d.metadata, tool_results := some d.tool_results }
  | none => none

/-- `ConversationMemory.get_conversation_stats` (memory.py, lines 218-240).
The empty-history branch of the Python code omits the `context_keys` and
`has_summary` dict keys; the model fills them with the empty defaults. -/
structure ConversationStats where
  total_messages : Nat
  user_messages : Nat
  assistant_messages : Nat
  oldest_message : Option Int
  newest_message : Option Int
  context_keys : List String := []
  has_summary : Bool := false
deriving DecidableEq, Repr

def get_conversation_stats (mem : ConversationMemory) : ConversationStats :=
  if mem.messages = [] then
    { total_messages := 0, user_messages := 0, assistant_messages := 0,
      oldest_message := none, newest_message := none }
  else
    { total_messages := mem.messages.length,
      user_messages :=
        (mem.messages.filter (fun m => decide (m.role = .user))).length,
      assistant_messages :=
        (mem.messages.filter (fun m => decide (m.role = .assistant))).length,
      oldest_message := (mem.messages.head?).map ConversationMessage.timestamp,
      newest_message := (mem.messages.getLast?).map ConversationMessage.timestamp,
      context_keys := dictKeys mem.context,
      has_summary := mem.summary.isSome }

/-- The snapshot document `save_to_file` writes (memory.py, lines 260-273). -/
structure SavedConversation where
  messages : List SavedMessage
  context : Ctx
  summary : Option String
  stats : ConversationStats
  saved_at : Int
deriving DecidableEq, Repr

/-- `ConversationMemory.save_to_file`: serialize messages, context, summary,
stats and the save timestamp.  The JSON file itself is modelled by the
document value (JSON encoding of these fields is lossless). -/
def save_to_file (mem : ConversationMemory) (now : Int) : SavedConversation :=
  { messages := mem.messages.map ConversationMessage.to_dict,
    context := mem.context, summary := mem.summary,
    stats := get_conversation_stats mem, saved_at := now }

/-- The list comprehension of `load_from_file`: deserialize every stored
message, aborting at the first one whose role fails to parse (a raised
exception in Python). -/
def deserializeMessages : List SavedMessage → Option (List ConversationMessage)
  | [] => some []
  | d :: ds =>
      match ConversationMessage.from_dict d with
      | some m => (deserializeMessages ds).map (fun ms => m :: ms)
      | none => none

/-- `ConversationMemory.load_from_file` (memory.py, lines 275-292): replace
`_messages`, `_context` and `_summary` with the snapshot contents; `none`
models the exception raised when a stored role string does not parse. -/
def load_from_file (mem : ConversationMemory) (data : SavedConversation) :
    Option ConversationMemory :=
  match deserializeMessages data.messages with
  | some msgs =>
      some { mem with messages := msgs, context := data.context,
                      summary := data.summary }
  | none => none

/-- A message as it comes back from a save/load round trip: role, content and
timestamp unchanged; `None` metadata/tool_results come back as `{}`. -/
def reloadMessage (m : ConversationMessage) : ConversationMessage :=
  { m with metadata := some (m.metadata.getD []),
           tool_results := some (m.tool_results.getD []) }

/-- A registered tool as the orchestration loop sees it: its spec and its
`execute` body (agent methods wrapped as tools). -/
structure ToolImpl where
  spec : ToolSpec
  execute : Ctx → Except String ToolResult

/-- The analysis object of `CoreNetworkDevOpsAgent._analyze_request`:
`{intent, category, tools_needed, parameters, complexity}`.  The Python
method never raises — any model/parse failure falls back to a default
analysis — so the model treats it as a total function. -/
structure Analysis where
  intent : String := ""
  category : String := "general"
  tools_needed : List String := []
  parameters : List (String × Ctx) := []
  complexity : String := "medium"

/-- `AgentResponse` (agent_base.py).  The `metadata` dict (analysis, model
id, region) carries no behavior relevant here and is not modelled. -/
structure AgentResponse where
  content : String
  success : Bool := true
  tool_results : Option (List (String × ResultDict)) := none
  timestamp : Int

/-- The loop body of `CoreNetworkDevOpsAgent._execute_tools` (core_agent.py,
lines 546-579), indexed so each tool call gets its own pair of clock reads.
A registered tool goes through `execute_with_validation` (total in the
model, so the surrounding `except` branch is unreachable); an unknown name
yields `{success: False, error: "Unknown tool: <name>"}` and the loop
continues. -/
def executeToolsGo (registry : List (String × ToolImpl))
    (parameters : List (String × Ctx)) (times : Nat → Int × Int) :
    Nat → List (String × ResultDict) → List String →
    List (String × ResultDict)
  | _, results, [] => results
  | i, results, name :: rest =>
      let entry : ResultDict :=
        match dictGet name registry with
        | some t =>
            ToolResult.to_dict
              (execute_with_validation t.spec t.execute
                ((dictGet name parameters).getD [])
                (times i).1 (times i).2)
        | none =>
            { success := false, error := some ("Unknown tool: " ++ name) }
      executeToolsGo registry parameters times (i + 1)
        (dictInsert results name entry) rest

/-- `CoreNetworkDevOpsAgent._execute_tools`. -/
def execute_tools (registry : List (String × ToolImpl))
    (tools_needed : List String) (parameters : List (String × Ctx))
    (times : Nat → Int × Int) : List (String × ResultDict) :=
  executeToolsGo registry parameters times 0 [] tools_needed

/-- First-occurrence key order of a name list, as a dict built by repeated
assignment exposes it. -/
def firstOccurrences (names : List String) : List String :=
  names.foldl (fun ks n => if n ∈ ks then ks else ks ++ [n]) []

/-- `CoreNetworkDevOpsAgent.process_request` (core_agent.py, lines 108-190).
`analyze` and `generate` stand for `_analyze_request` and
`_generate_response`; both Python methods catch every exception internally
(falling back to a default analysis resp. an error string), so they are
modelled as total functions and the outer `except` branch of
`process_request` is unreachable: the returned `AgentResponse` is built with
`success=True`.  `if context:` skips the context merge for `None` and for an
empty dict. -/
def process_request (registry : List (String × ToolImpl))
    (analyze : String → Analysis)
    (generate : String → Analysis → List (String × ResultDict) → String)
    (mem : ConversationMemory) (user_input : String) (context : Option Ctx)
    (now : Int) (times : Nat → Int × Int) :
    AgentResponse × ConversationMemory :=
  let mem1 := add_message now mem .user user_input context none
  let mem2 := match context with
    | some c => if c = [] then mem1 else update_context mem1 c
    | none => mem1
  let analysis := analyze user_input
  let tool_results :=
    if analysis.tools_needed = [] then []
    else execute_tools registry analysis.tools_needed analysis.parameters times
  let content := generate user_input analysis tool_results
  let response : AgentResponse :=
    { content := content, success := true,
      tool_results := some tool_results, timestamp := now }
  let mem3 := add_message now mem2 .assistant content none (some tool_results)
  (response, mem3)

/-! Concrete fixtures used by the closed counterexample and witness
theorems below. -/

/-- A message with no metadata or tool results. -/
def mkMsg (r : MessageRole) (c : String) (t : Int) : ConversationMessage :=
  { role := r, content := c, timestamp := t }

/-- A tool spec with no parameters (validation always succeeds). -/
def specNoParams : ToolSpec := { name := "ping" }

/-- A tool body that raises. -/
def raisingExecute : Ctx → Except String ToolResult :=
  fun _ => Except.error "boom"

/-- The spec of testable property P1: `a` a required string, `b` an optional
integer with default 5. -/
def specDemo : ToolSpec :=
  { name := "demo",
    parameters :=
      [ { name := "a", type := "string", description := "a", required := true },
        { name := "b", type := "integer", description := "b",
          default := some (PyVal.vInt 5) } ] }

/-- A parameter with an enum and a default that is not a member of it. -/
def specEnumDefault : ToolSpec :=
  { name := "enumtool",
    parameters :=
      [ { name := "p", type := "string", description := "p",
          default := some (PyVal.vStr "z"), enum := some ["a"] } ] }

/-- A parameter with a non-empty enum and no default. -/
def specModes : ToolSpec :=
  { name := "modes",
    parameters :=
      [ { name := "mode", type := "string", description := "mode",
          enum := some ["fast", "slow"] } ] }

/-- A memory configured with `max_messages = 0` (count eviction slice
`[-0:]` keeps everything). -/
def memZeroMax : ConversationMemory :=
  { max_messages := 0, retention_hours := 0 }

/-- A memory with `max_messages = 3` holding four messages already. -/
def memFour : ConversationMemory :=
  { max_messages := 3, retention_hours := 0,
    messages := [mkMsg .user "m1" 1, mkMsg .assistant "m2" 2,
                 mkMsg .user "m3" 3, mkMsg .assistant "m4" 4] }

/-- A memory holding a single message. -/
def memOne : ConversationMemory :=
  { messages := [mkMsg .user "only" 5] }

/-- A registry holding one tool named `echo`. -/
def regEcho : List (String × ToolImpl) :=
  [("echo", { spec := { name := "echo" },
              execute := fun _ => Except.ok { success := true } })]

/-- An analysis requesting one unknown and one registered tool. -/
def analyzeMissing : String → Analysis :=
  fun _ => { tools_needed := ["does_not_exist", "echo"] }

/-- A constant response generator. -/
def generateConst : String → Analysis → List (String × ResultDict) → String :=
  fun _ _ _ => "done"

/-- The message record `add_message` appends. -/
def newMessage (now : Int) (role : MessageRole) (content : String)
    (metadata : Option Ctx)
    (tool_results : Option (List (String × ResultDict))) :
    ConversationMessage :=
  { role := role, content := content, timestamp := now,
    metadata := metadata, tool_results := tool_results }

/-- The spec-side description of a successful validation output: a declared
parameter is bound to its supplied value, else to its non-null default;
an undeclared parameter is dropped. -/
def expectedOutput (spec : ToolSpec) (parameters : Ctx) (k : String) :
    Option PyVal :=
  match findParam k spec.parameters with
  | some p =>
      (match dictGet k parameters with
       | some v => some v
       | none => p.default)
  | none => none

/-! Helper lemmas about the dict model. -/

theorem dictGet_append {α : Type u} (k : String) (d1 d2 : List (String × α)) :
    dictGet k (d1 ++ d2) =
      match dictGet k d1 with
      | some v => some v
      | none => dictGet k d2 := by
  induction d1 with
  | nil => simp [dictGet]
  | cons kv rest ih =>
      by_cases h : kv.1 = k <;> simp [dictGet, h, ih]

theorem mem_dictKeys_iff {α : Type u} (k : String) (d : List (String × α)) :
    k ∈ dictKeys d ↔ (dictGet k d).isSome := by
  induction d with
  | nil => simp [dictKeys, dictGet]
  | cons kv rest ih =>
      by_cases h : kv.1 = k
      · simp [dictKeys, dictGet, h]
      · simp only [dictKeys, List.map_cons, List.mem_cons, dictGet, if_neg h]
        simp only [dictKeys] at ih
        constructor
        · rintro (h2 | h2)
          · exact absurd h2.symm h
          · exact ih.mp h2
        · intro h2
          exact Or.inr (ih.mpr h2)

theorem dictGet_mapOverwrite_self {α : Type u} (d : List (String × α))
    (k : String) (v : α) (h : (dictGet k d).isSome) :
    dictGet k (d.map (fun kv => if kv.1 = k then (k, v) else kv)) = some v := by
  induction d with
  | nil => simp [dictGet] at h
  | cons kv rest ih =>
      by_cases hk : kv.1 = k
      · simp [dictGet, hk]
      · simp [dictGet, hk] at h ⊢
        exact ih h

theorem dictGet_mapOverwrite_other {α : Type u} (d : List (String × α))
    (k k2 : String) (v : α) (h : k ≠ k2) :
    dictGet k2 (d.map (fun kv => if kv.1 = k then (k, v) else kv)) =
      dictGet k2 d := by
  induction d with
  | nil => simp [dictGet]
  | cons kv rest ih =>
      by_cases hk : kv.1 = k
      · simp [dictGet, hk, h, Ne.symm h, ih]
      · by_cases hk2 : kv.1 = k2 <;>
          simp [dictGet, hk, hk2, Ne.symm h, ih]

theorem dictGet_insert_self {α : Type u} (d : List (String × α))
    (k : String) (v : α) : dictGet k (dictInsert d k v) = some v := by
  unfold dictInsert
  split
  · exact dictGet_mapOverwrite_self d k v (by assumption)
  · rename_i h
    rw [dictGet_append]
    have h2 : dictGet k d = none := by
      cases hd : dictGet k d with
      | none => rfl
      | some w => rw [hd] at h; simp at h
    simp [h2, dictGet]

theorem dictGet_insert_other {α : Type u} (d : List (String × α))
    (k k2 : String) (v : α) (h : k ≠ k2) :
    dictGet k2 (dictInsert d k v) = dictGet k2 d := by
  unfold dictInsert
  split
  · exact dictGet_mapOverwrite_other d k k2 v h
  · rw [dictGet_append]
    cases hd : dictGet k2 d with
    | none => simp [dictGet, h]
    | some w => simp

theorem dictInsert_of_none {α : Type u} (d : List (String × α))
    (k : String) (v : α) (h : dictGet k d = none) :
    dictInsert d k v = d ++ [(k, v)] := by
  simp [dictInsert, h]

theorem dictKeys_mapOverwrite {α : Type u} (d : List (String × α))
    (k : String) (v : α) :
    dictKeys (d.map (fun kv => if kv.1 = k then (k, v) else kv)) =
      dictKeys d := by
  induction d with
  | nil => rfl
  | cons kv rest ih =>
      simp only [dictKeys, List.map_cons] at ih ⊢
      by_cases hk : kv.1 = k
      · rw [if_pos hk, ih, hk]
      · rw [if_neg hk, ih]

theorem dictKeys_insert {α : Type u} (d : List (String × α))
    (k : String) (v : α) :
    dictKeys (dictInsert d k v) =
      if k ∈ dictKeys d then dictKeys d else dictKeys d ++ [k] := by
  unfold dictInsert
  by_cases h : (dictGet k d).isSome
  · rw [if_pos h, if_pos ((mem_dictKeys_iff k d).mpr h),
      dictKeys_mapOverwrite]
  · rw [if_neg h, if_neg (fun hm => h ((mem_dictKeys_iff k d).mp hm))]
    simp [dictKeys]

theorem dictGet_isSome_insert_mono {α : Type u} (d : List (String × α))
    (k k2 : String) (v : α) (h : (dictGet k2 d).isSome = true) :
    (dictGet k2 (dictInsert d k v)).isSome = true := by
  by_cases hk : k = k2
  · subst hk; simp [dictGet_insert_self]
  · rw [dictGet_insert_other d k k2 v hk]; exact h

/-! Lemmas about the validation fold. -/

theorem foldl_validateStep_snd (parameters : Ctx) (ps : List ToolParameter)
    (acc : Ctx × List String) :
    (ps.foldl (validateStep parameters) acc).2 =
      acc.2 ++ presentErrors parameters ps := by
  induction ps generalizing acc with
  | nil => simp [presentErrors]
  | cons p ps ih =>
      simp only [List.foldl_cons, presentErrors]
      rw [ih]
      cases hd : dictGet p.name parameters with
      | some v => simp [validateStep, hd, List.append_assoc]
      | none => cases hdef : p.default <;> simp [validateStep, hd, hdef]

theorem foldl_validateStep_fst (parameters : Ctx) (ps : List ToolParameter)
    (acc : Ctx × List String)
    (hfresh : ∀ p ∈ ps, dictGet p.name acc.1 = none)
    (hnd : (ps.map ToolParameter.name).Nodup) :
    (ps.foldl (validateStep parameters) acc).1 =
      acc.1 ++ injectedEntries parameters ps := by
  induction ps generalizing acc with
  | nil => simp [injectedEntries]
  | cons p ps ih =>
      simp only [List.map_cons, List.nodup_cons] at hnd
      obtain ⟨hp2, hnd2⟩ := hnd
      have hfp : dictGet p.name acc.1 = none := hfresh p (by simp)
      simp only [List.foldl_cons, injectedEntries]
      cases hd : dictGet p.name parameters with
      | some v =>
          have hstep : validateStep parameters acc p =
              (acc.1 ++ [(p.name, v)], acc.2 ++ typeError p v ++ enumError p v) := by
            simp [validateStep, hd, dictInsert_of_none acc.1 p.name v hfp]
          rw [hstep, ih]
          · simp [List.append_assoc]
          · intro q hq
            rw [dictGet_append]
            rw [hfresh q (by simp [hq])]
            have hq2 : q.name ≠ p.name := by
              intro hcontra
              exact hp2 (hcontra ▸ List.mem_map_of_mem ToolParameter.name hq)
            simp [dictGet, Ne.symm hq2]
          · exact hnd2
      | none =>
          cases hdef : p.default with
          | some dv =>
              have hstep : validateStep parameters acc p =
                  (acc.1 ++ [(p.name, dv)], acc.2) := by
                simp [validateStep, hd, hdef,
                  dictInsert_of_none acc.1 p.name dv hfp]
              rw [hstep, ih]
              · simp [List.append_assoc]
              · intro q hq
                rw [dictGet_append]
                rw [hfresh q (by simp [hq])]
                have hq2 : q.name ≠ p.name := by
                  intro hcontra
                  exact hp2 (hcontra ▸ List.mem_map_of_mem ToolParameter.name hq)
                simp [dictGet, Ne.symm hq2]
              · exact hnd2
          | none =>
              have hstep : validateStep parameters acc p = acc := by
                simp [validateStep, hd, hdef]
              rw [hstep, ih]
              · simp
              · intro q hq
                exact hfresh q (by simp [hq])
              · exact hnd2

theorem dictGet_injectedEntries_of_not_mem (parameters : Ctx) (k : String)
    (ps : List ToolParameter) (h : k ∉ ps.map ToolParameter.name) :
    dictGet k (injectedEntries parameters ps) = none := by
  induction ps with
  | nil => rfl
  | cons p ps ih =>
      simp only [List.map_cons, List.mem_cons, not_or] at h
      obtain ⟨h1, h2⟩ := h
      simp only [injectedEntries]
      cases hd : dictGet p.name parameters with
      | some v => simp [dictGet, Ne.symm h1, ih h2]
      | none =>
          cases hdef : p.default with
          | some dv => simp [dictGet, Ne.symm h1, ih h2]
          | none => simpa using ih h2

theorem dictGet_injectedEntries (parameters : Ctx) (k : String)
    (ps : List ToolParameter) (hnd : (ps.map ToolParameter.name).Nodup) :
    dictGet k (injectedEntries parameters ps) =
      match findParam k ps with
      | some p =>
          (match dictGet k parameters with
           | some v => some v
           | none => p.default)
      | none => none := by
  induction ps with
  | nil => rfl
  | cons p ps ih =>
      simp only [List.map_cons, List.nodup_cons] at hnd
      obtain ⟨hp2, hnd2⟩ := hnd
      simp only [injectedEntries, findParam]
      by_cases hk : p.name = k
      · rw [if_pos hk]
        subst hk
        cases hd : dictGet p.name parameters with
        | some v => simp [dictGet, hd]
        | none =>
            cases hdef : p.default with
            | some dv => simp [dictGet, hd, hdef]
            | none =>
                simp only [hd, hdef, List.nil_append]
                exact dictGet_injectedEntries_of_not_mem parameters p.name ps hp2
      · rw [if_neg hk]
        cases hd : dictGet p.name parameters with
        | some v => simpa [dictGet, hk] using ih hnd2
        | none =>
            cases hdef : p.default with
            | some dv => simpa [dictGet, hk] using ih hnd2
            | none => simpa using ih hnd2

theorem presentErrors_nil_clean (parameters : Ctx) (ps : List ToolParameter)
    (h : presentErrors parameters ps = []) :
    ∀ p ∈ ps, ∀ v, dictGet p.name parameters = some v →
      typeError p v = [] ∧ enumError p v = [] := by
  induction ps with
  | nil =>
      intro p hp
      simp at hp
  | cons q ps ih =>
      intro p hp v hv
      simp only [presentErrors, List.append_eq_nil] at h
      obtain ⟨h1, h2⟩ := h
      rcases List.mem_cons.mp hp with rfl | hmem
      · rw [hv] at h1
        exact List.append_eq_nil.mp h1
      · exact ih h2 p hmem v hv

/-- `validationErrors` unfolded. -/
theorem validationErrors_def (spec : ToolSpec) (parameters : Ctx) :
    validationErrors spec parameters =
      requiredErrors spec parameters ++
        presentErrors parameters spec.parameters := rfl

theorem validate_res_snd (spec : ToolSpec) (parameters : Ctx) :
    (spec.parameters.foldl (validateStep parameters)
        ([], requiredErrors spec parameters)).2 =
      validationErrors spec parameters := by
  rw [foldl_validateStep_snd]
  rfl

theorem validate_parameters_of_no_errors (spec : ToolSpec) (parameters : Ctx)
    (h : validationErrors spec parameters = []) :
    validate_parameters spec parameters =
      Except.ok ((spec.parameters.foldl (validateStep parameters)
        ([], requiredErrors spec parameters)).1) := by
  unfold validate_parameters
  simp only [validate_res_snd spec parameters, h]
  simp

theorem validate_parameters_of_errors (spec : ToolSpec) (parameters : Ctx)
    (h : validationErrors spec parameters ≠ []) :
    validate_parameters spec parameters =
      Except.error ("Parameter validation failed: " ++
        String.intercalate "; " (validationErrors spec parameters)) := by
  unfold validate_parameters
  simp only [validate_res_snd spec parameters]
  simp [h]

/-- **C3**: `validate_parameters` either fails with a single error whose
message concatenates every accumulated violation (missing required
parameters first, then per-parameter type and enum violations in declaration
order), or succeeds returning exactly the declared supplied parameters plus
injected non-null defaults, silently dropping undeclared parameters. -/
theorem validate_parameters_characterization (spec : ToolSpec)
    (parameters : Ctx)
    (hnd : (spec.parameters.map ToolParameter.name).Nodup) :
    (∀ msg, validate_parameters spec parameters = Except.error msg →
        validationErrors spec parameters ≠ [] ∧
        msg = "Parameter validation failed: " ++
          String.intercalate "; " (validationErrors spec parameters)) ∧
    (validationErrors spec parameters ≠ [] →
        validate_parameters spec parameters = Except.error
          ("Parameter validation failed: " ++
            String.intercalate "; " (validationErrors spec parameters))) ∧
    (∀ validated, validate_parameters spec parameters = Except.ok validated →
        ∀ k, dictGet k validated = expectedOutput spec parameters k) := by
  refine ⟨?_, ?_, ?_⟩
  · intro msg hmsg
    by_cases h : validationErrors spec parameters = []
    · rw [validate_parameters_of_no_errors spec parameters h] at hmsg
      exact absurd hmsg (by simp)
    · rw [validate_parameters_of_errors spec parameters h] at hmsg
      refine ⟨h, ?_⟩
      injection hmsg with h2
      exact h2.symm
  · intro h
    exact validate_parameters_of_errors spec parameters h
  · intro validated hok k
    by_cases h : validationErrors spec parameters = []
    · rw [validate_parameters_of_no_errors spec parameters h] at hok
      injection hok with h2
      rw [← h2]
      rw [foldl_validateStep_fst parameters spec.parameters
        ([], requiredErrors spec parameters) (by intro p hp; rfl) hnd]
      show dictGet k (injectedEntries parameters spec.parameters) = _
      rw [dictGet_injectedEntries parameters k spec.parameters hnd]
      rfl
    · rw [validate_parameters_of_errors spec parameters h] at hok
      exact absurd hok (by simp)

/-- **C3 witness**: the characterization applied to the P1 spec
(`a` required string, `b` optional integer defaulting to 5) with the input
`{a: "x"}`. -/
theorem validate_parameters_characterization_witness :
    ((specDemo.parameters.map ToolParameter.name).Nodup) ∧
    ((∀ msg, validate_parameters specDemo [("a", PyVal.vStr "x")] =
          Except.error msg →
        validationErrors specDemo [("a", PyVal.vStr "x")] ≠ [] ∧
        msg = "Parameter validation failed: " ++
          String.intercalate "; "
            (validationErrors specDemo [("a", PyVal.vStr "x")])) ∧
     (validationErrors specDemo [("a", PyVal.vStr "x")] ≠ [] →
        validate_parameters specDemo [("a", PyVal.vStr "x")] = Except.error
          ("Parameter validation failed: " ++
            String.intercalate "; "
              (validationErrors specDemo [("a", PyVal.vStr "x")]))) ∧
     (∀ validated,
        validate_parameters specDemo [("a", PyVal.vStr "x")] =
          Except.ok validated →
        ∀ k, dictGet k validated =
          expectedOutput specDemo [("a", PyVal.vStr "x")] k)) :=
  ⟨by decide,
   validate_parameters_characterization specDemo [("a", PyVal.vStr "x")]
     (by decide)⟩

/-- **C4 (amended)**: in a successful output of `validate_parameters`, every
*caller-supplied* value bound to a parameter with a declared *non-empty* enum
is a member of that enum.  (The original claim also covered injected
defaults and empty enum declarations; the code checks neither — see the
counterexample.) -/
theorem validate_parameters_enum_membership (spec : ToolSpec)
    (parameters : Ctx) (validated : Ctx)
    (hok : validate_parameters spec parameters = Except.ok validated)
    (p : ToolParameter) (hp : p ∈ spec.parameters) (l : List String)
    (he : p.enum = some l) (hne : l ≠ []) (v : PyVal)
    (hv : dictGet p.name parameters = some v) :
    pyInStrList v l = true := by
  by_cases h : validationErrors spec parameters = []
  · have hpe : presentErrors parameters spec.parameters = [] := by
      rw [validationErrors_def] at h
      exact (List.append_eq_nil.mp h).2
    obtain ⟨-, henum⟩ :=
      presentErrors_nil_clean parameters spec.parameters hpe p hp v hv
    by_contra hmem
    rw [Bool.not_eq_true] at hmem
    unfold enumError at henum
    rw [he] at henum
    simp [hne, hmem] at henum
  · rw [validate_parameters_of_errors spec parameters h] at hok
    exact absurd hok (by simp)

/-- **C4 witness**: the spec declaring `mode ∈ {fast, slow}` with the caller
supplying `mode = "fast"` validates successfully, and the theorem yields the
membership. -/
theorem validate_parameters_enum_membership_witness :
    validate_parameters specModes [("mode", PyVal.vStr "fast")] =
      Except.ok [("mode", PyVal.vStr "fast")] ∧
    pyInStrList (PyVal.vStr "fast") ["fast", "slow"] = true :=
  ⟨by rfl,
   validate_parameters_enum_membership specModes
     [("mode", PyVal.vStr "fast")] [("mode", PyVal.vStr "fast")] (by rfl)
     { name := "mode", type := "string", description := "mode",
       enum := some ["fast", "slow"] }
     (by decide) ["fast", "slow"] rfl (by decide) (PyVal.vStr "fast")
     (by decide)⟩

/-- **C4 counterexample**: the claim as stated is false for values injected
from a parameter default: with parameter `p` declaring `enum = ["a"]` and
`default = "z"`, validation of the empty input succeeds and binds `p` to
`"z"`, which is not a member of the enum — the default is never checked
against the enum. -/
theorem validate_parameters_enum_default_counterexample :
    validate_parameters specEnumDefault [] =
      Except.ok [("p", PyVal.vStr "z")] ∧
    pyInStrList (PyVal.vStr "z") ["a"] = false := by
  exact ⟨by rfl, by rfl⟩

/-- **C1**: `execute_with_validation` never propagates an exception.  When
validation fails it returns a failed `ToolResult` carrying the validation
error message without ever consulting the tool body (the result is the same
for every `execute`); when the body raises with message `m` it returns a
failed `ToolResult` with `error = m` and a populated, non-negative
`execution_time_ms` (non-negativity under the monotone-clock hypothesis
`start ≤ finish`). -/
theorem execute_with_validation_never_raises (spec : ToolSpec)
    (execute : Ctx → Except String ToolResult) (parameters : Ctx)
    (start finish : Int) (hclock : start ≤ finish) :
    (∀ msg, validate_parameters spec parameters = Except.error msg →
        ∀ execute2 : Ctx → Except String ToolResult,
          execute_with_validation spec execute2 parameters start finish =
            { success := false, error := some msg,
              execution_time_ms := some (finish - start),
              timestamp := some finish }) ∧
    (∀ validated m,
        validate_parameters spec parameters = Except.ok validated →
        execute validated = Except.error m →
        (execute_with_validation spec execute parameters
            start finish).success = false ∧
        (execute_with_validation spec execute parameters
            start finish).error = some m ∧
        ∃ t, (execute_with_validation spec execute parameters
            start finish).execution_time_ms = some t ∧ 0 ≤ t) := by
  constructor
  · intro msg hmsg execute2
    unfold execute_with_validation
    rw [hmsg]
  · intro validated m hok hraise
    unfold execute_with_validation
    rw [hok]
    dsimp only
    rw [hraise]
    exact ⟨rfl, rfl, finish - start, rfl, by omega⟩

/-- **C1 witness**: the no-parameter spec with a malformed input map and a
raising tool body, at clock reads 0 and 1. -/
theorem execute_with_validation_never_raises_witness :
    (0 : Int) ≤ 1 ∧
    ((∀ msg, validate_parameters specNoParams [("junk", PyVal.vInt 7)] =
          Except.error msg →
        ∀ execute2 : Ctx → Except String ToolResult,
          execute_with_validation specNoParams execute2
              [("junk", PyVal.vInt 7)] 0 1 =
            { success := false, error := some msg,
              execution_time_ms := some (1 - 0),
              timestamp := some 1 }) ∧
     (∀ validated m,
        validate_parameters specNoParams [("junk", PyVal.vInt 7)] =
          Except.ok validated →
        raisingExecute validated = Except.error m →
        (execute_with_validation specNoParams raisingExecute
            [("junk", PyVal.vInt 7)] 0 1).success = false ∧
        (execute_with_validation specNoParams raisingExecute
            [("junk", PyVal.vInt 7)] 0 1).error = some m ∧
        ∃ t, (execute_with_validation specNoParams raisingExecute
            [("junk", PyVal.vInt 7)] 0 1).execution_time_ms = some t ∧
          0 ≤ t)) :=
  ⟨by decide,
   execute_with_validation_never_raises specNoParams raisingExecute
     [("junk", PyVal.vInt 7)] 0 1 (by decide)⟩

/-- **C8**: on every path — validation failure, body exception, or normal
return — the `ToolResult` handed back by `execute_with_validation` carries
`execution_time_ms = finish - start`, the wrapper's own measurement,
regardless of any value the tool body placed in that field. -/
theorem execute_with_validation_stamps_duration (spec : ToolSpec)
    (execute : Ctx → Except String ToolResult) (parameters : Ctx)
    (start finish : Int) :
    (execute_with_validation spec execute parameters
        start finish).execution_time_ms = some (finish - start) := by
  unfold execute_with_validation
  cases hv : validate_parameters spec parameters with
  | error e => rfl
  | ok validated =>
      dsimp only
      cases he : execute validated with
      | ok r => rfl
      | error m => rfl

/-! Lemmas about the Python tail slice. -/

theorem pySliceLast_suffix {α : Type u} (l : List α) (k : Nat) :
    pySliceLast l k <:+ l := by
  unfold pySliceLast
  split
  · exact List.suffix_refl l
  · exact List.drop_suffix _ _

theorem pySliceLast_length_le {α : Type u} (l : List α) (k : Nat)
    (hk : 0 < k) : (pySliceLast l k).length ≤ k := by
  unfold pySliceLast
  rw [if_neg (by omega)]
  rw [List.length_drop]
  omega

/-- **C2 (amended)**: provided `max_messages > 0`, after any `add_message`
call the stored count is at most `max_messages`; when `retention_hours > 0`
every surviving message's timestamp is at least `now - retention_hours`; the
surviving list is a suffix (the most recent entries, in original relative
order) of the retention-filtered appended history, which is itself an
order-preserving sublist of the appended history; and `retention_hours = 0`
disables time-based eviction, leaving only the count rule.  (With
`max_messages = 0` the count bound fails — see the counterexample.) -/
theorem add_message_eviction_bounds (mem : ConversationMemory) (now : Int)
    (role : MessageRole) (content : String) (metadata : Option Ctx)
    (tool_results : Option (List (String × ResultDict)))
    (hmax : 0 < mem.max_messages) :
    (add_message now mem role content metadata tool_results).messages.length ≤
      mem.max_messages ∧
    (0 < mem.retention_hours →
      ∀ msg ∈ (add_message now mem role content metadata tool_results).messages,
        now - 3600 * (mem.retention_hours : Int) ≤ msg.timestamp) ∧
    (add_message now mem role content metadata tool_results).messages <:+
      retentionKeep now mem.retention_hours
        (mem.messages ++ [newMessage now role content metadata tool_results]) ∧
    List.Sublist
      (retentionKeep now mem.retention_hours
        (mem.messages ++ [newMessage now role content metadata tool_results]))
      (mem.messages ++ [newMessage now role content metadata tool_results]) ∧
    (mem.retention_hours = 0 →
      (add_message now mem role content metadata tool_results).messages =
        (if mem.max_messages <
            (mem.messages ++
              [newMessage now role content metadata tool_results]).length then
          pySliceLast
            (mem.messages ++ [newMessage now role content metadata tool_results])
            mem.max_messages
        else
          mem.messages ++ [newMessage now role content metadata tool_results])) := by
  have hres : (add_message now mem role content metadata tool_results).messages =
      (if mem.max_messages <
          (retentionKeep now mem.retention_hours
            (mem.messages ++
              [newMessage now role content metadata tool_results])).length then
        pySliceLast
          (retentionKeep now mem.retention_hours
            (mem.messages ++
              [newMessage now role content metadata tool_results]))
          mem.max_messages
      else
        retentionKeep now mem.retention_hours
          (mem.messages ++
            [newMessage now role content metadata tool_results])) := rfl
  refine ⟨?_, ?_, ?_, ?_, ?_⟩
  · rw [hres]
    split
    · exact pySliceLast_length_le _ _ hmax
    · omega
  · intro hr msg hmem
    rw [hres] at hmem
    have hkept : msg ∈ retentionKeep now mem.retention_hours
        (mem.messages ++ [newMessage now role content metadata tool_results]) := by
      revert hmem
      split
      · intro hmem
        exact (pySliceLast_suffix _ _).subset hmem
      · intro hmem
        exact hmem
    unfold retentionKeep at hkept
    rw [if_pos hr] at hkept
    have := List.of_mem_filter hkept
    exact of_decide_eq_true this
  · rw [hres]
    split
    · exact pySliceLast_suffix _ _
    · exact List.suffix_refl _
  · unfold retentionKeep
    split
    · exact List.filter_sublist _
    · exact List.Sublist.refl _
  · intro hr0
    have hk : retentionKeep now mem.retention_hours
        (mem.messages ++ [newMessage now role content metadata tool_results]) =
        mem.messages ++ [newMessage now role content metadata tool_results] := by
      unfold retentionKeep
      rw [if_neg (by omega)]
    rw [hres, hk]

/-- **C2 witness**: a memory with `max_messages = 3` already holding four
messages receives a fifth. -/
theorem add_message_eviction_bounds_witness :
    0 < memFour.max_messages ∧
    ((add_message 10 memFour .user "m5" none none).messages.length ≤
        memFour.max_messages ∧
      (0 < memFour.retention_hours →
        ∀ msg ∈ (add_message 10 memFour .user "m5" none none).messages,
          (10 : Int) - 3600 * (memFour.retention_hours : Int) ≤
            msg.timestamp) ∧
      (add_message 10 memFour .user "m5" none none).messages <:+
        retentionKeep 10 memFour.retention_hours
          (memFour.messages ++ [newMessage 10 .user "m5" none none]) ∧
      List.Sublist
        (retentionKeep 10 memFour.retention_hours
          (memFour.messages ++ [newMessage 10 .user "m5" none none]))
        (memFour.messages ++ [newMessage 10 .user "m5" none none]) ∧
      (memFour.retention_hours = 0 →
        (add_message 10 memFour .user "m5" none none).messages =
          (if memFour.max_messages <
              (memFour.messages ++
                [newMessage 10 .user "m5" none none]).length then
            pySliceLast
              (memFour.messages ++ [newMessage 10 .user "m5" none none])
              memFour.max_messages
          else
            memFour.messages ++ [newMessage 10 .user "m5" none none]))) :=
  ⟨by decide, add_message_eviction_bounds memFour 10 .user "m5" none none
    (by decide)⟩

/-- **C2 counterexample**: with `max_messages = 0` the count-eviction slice
`self._messages[-0:]` keeps the whole list, so after one `add_message` the
stored count strictly exceeds `max_messages` — the claimed bound fails as
stated for every ConversationMemory. -/
theorem add_message_zero_max_counterexample :
    memZeroMax.max_messages = 0 ∧
    memZeroMax.max_messages <
      (add_message 0 memZeroMax .user "hello" none none).messages.length :=
  ⟨rfl, by decide⟩

/-- **C6 (amended)**: for every `n ≥ 1`, `get_recent_messages(n)` returns
exactly the last `min n (history length)` messages in append order (the
empty list when the history is empty); for `n = 0` the Python slice `[-0:]`
returns the *entire* history instead — see the counterexample. -/
theorem get_recent_messages_last_min (mem : ConversationMemory) (n : Nat)
    (h : 0 < n) :
    get_recent_messages mem n =
      mem.messages.drop (mem.messages.length - n) ∧
    (get_recent_messages mem n).length = min n mem.messages.length ∧
    get_recent_messages mem n <:+ mem.messages := by
  have h1 : get_recent_messages mem n =
      mem.messages.drop (mem.messages.length - n) := by
    unfold get_recent_messages pySliceLast
    split
    · rename_i he
      rw [he]
      simp
    · rw [if_neg (by omega)]
  refine ⟨h1, ?_, ?_⟩
  · rw [h1, List.length_drop]
    omega
  · rw [h1]
    exact List.drop_suffix _ _

/-- **C6 witness**: the last-two slice of a four-message history. -/
theorem get_recent_messages_last_min_witness :
    0 < 2 ∧
    (get_recent_messages memFour 2 =
        memFour.messages.drop (memFour.messages.length - 2) ∧
      (get_recent_messages memFour 2).length =
        min 2 memFour.messages.length ∧
      get_recent_messages memFour 2 <:+ memFour.messages) :=
  ⟨by decide, get_recent_messages_last_min memFour 2 (by decide)⟩

/-- **C6 counterexample**: on a one-message history,
`get_recent_messages(0)` returns the whole history (one message), not at
most zero messages: `[-0:]` is `[0:]`. -/
theorem get_recent_messages_zero_counterexample :
    get_recent_messages memOne 0 = memOne.messages ∧
    1 ≤ (get_recent_messages memOne 0).length :=
  ⟨rfl, by decide⟩

/-- **C9**: a zero `limit` is falsy in `if limit:`, so `get_messages` with
`limit = 0` applies no limit at all: it returns every message passing the
role and since filters, exactly as `limit = None` does. -/
theorem get_messages_zero_limit_no_limit (mem : ConversationMemory)
    (role_filter : Option MessageRole) (since : Option Int) :
    get_messages mem (some 0) role_filter since =
      get_messages mem none role_filter since ∧
    get_messages mem (some 0) role_filter since =
      roleSinceFiltered mem role_filter since := by
  have h1 : get_messages mem (some 0) role_filter since =
      get_messages mem none role_filter since := by
    unfold get_messages
    simp
  refine ⟨h1, ?_⟩
  rw [h1]
  unfold get_messages roleSinceFiltered
  cases role_filter with
  | none =>
      cases since with
      | none => simp
      | some t => simp
  | some r =>
      cases since with
      | none => simp
      | some t =>
          dsimp only
          rw [List.filter_filter]
          exact List.filter_congr (fun m _ => Bool.and_comm _ _)

/-- **C10**: frame conditions of the memory mutators — `add_message` leaves
context, summary and configuration untouched; `update_context` leaves
messages and summary untouched; `set_summary` and `clear_context` each touch
only their own field; `clear` resets messages, context and summary
together. -/
theorem memory_frame_conditions (mem : ConversationMemory) (now : Int)
    (role : MessageRole) (content : String) (metadata : Option Ctx)
    (tool_results : Option (List (String × ResultDict))) (ctx : Ctx)
    (s : String) :
    ((add_message now mem role content metadata tool_results).context =
        mem.context ∧
      (add_message now mem role content metadata tool_results).summary =
        mem.summary ∧
      (add_message now mem role content metadata tool_results).max_messages =
        mem.max_messages ∧
      (add_message now mem role content metadata tool_results).retention_hours =
        mem.retention_hours) ∧
    ((update_context mem ctx).messages = mem.messages ∧
      (update_context mem ctx).summary = mem.summary) ∧
    ((set_summary mem s).messages = mem.messages ∧
      (set_summary mem s).context = mem.context) ∧
    ((clear_context mem).messages = mem.messages ∧
      (clear_context mem).summary = mem.summary) ∧
    ((ConversationMemory.clear mem).messages = [] ∧
      (ConversationMemory.clear mem).context = [] ∧
      (ConversationMemory.clear mem).summary = none) :=
  ⟨⟨rfl, rfl, rfl, rfl⟩, ⟨rfl, rfl⟩, ⟨rfl, rfl⟩, ⟨rfl, rfl⟩, rfl, rfl, rfl⟩

/-! Lemmas for the save/load round trip. -/

theorem role_value_ofValue (r : MessageRole) :
    MessageRole.ofValue r.value = some r := by
  cases r <;> rfl

theorem from_dict_to_dict (m : ConversationMessage) :
    ConversationMessage.from_dict (ConversationMessage.to_dict m) =
      some (reloadMessage m) := by
  unfold ConversationMessage.from_dict ConversationMessage.to_dict
  rw [role_value_ofValue]
  rfl

theorem deserializeMessages_map_to_dict (msgs : List ConversationMessage) :
    deserializeMessages (msgs.map ConversationMessage.to_dict) =
      some (msgs.map reloadMessage) := by
  induction msgs with
  | nil => rfl
  | cons m ms ih =>
      simp only [List.map_cons, deserializeMessages, from_dict_to_dict, ih]
      rfl

/-- **C7**: saving a ConversationMemory and loading the snapshot into any
target instance replaces the target's messages, context and summary with the
saved ones: the loaded message sequence has the same roles, contents and
timestamps in the same order, and the context map and summary are identical
(loading replaces state, it does not merge — all other target fields are the
target's own configuration). -/
theorem save_load_roundtrip (mem target : ConversationMemory) (now : Int) :
    load_from_file target (save_to_file mem now) =
      some { target with
               messages := mem.messages.map reloadMessage,
               context := mem.context,
               summary := mem.summary } ∧
    (load_from_file target (save_to_file mem now)).map
        (fun m2 => m2.messages.map ConversationMessage.role) =
      some (mem.messages.map ConversationMessage.role) ∧
    (load_from_file target (save_to_file mem now)).map
        (fun m2 => m2.messages.map ConversationMessage.content) =
      some (mem.messages.map ConversationMessage.content) ∧
    (load_from_file target (save_to_file mem now)).map
        (fun m2 => m2.messages.map ConversationMessage.timestamp) =
      some (mem.messages.map ConversationMessage.timestamp) ∧
    (load_from_file target (save_to_file mem now)).map
        (fun m2 => m2.context) = some mem.context ∧
    (load_from_file target (save_to_file mem now)).map
        (fun m2 => m2.summary) = some mem.summary := by
  have h1 : load_from_file target (save_to_file mem now) =
      some { target with
               messages := mem.messages.map reloadMessage,
               context := mem.context,
               summary := mem.summary } := by
    simp only [load_from_file, save_to_file]
    rw [deserializeMessages_map_to_dict]
  refine ⟨h1, ?_, ?_, ?_, ?_, ?_⟩
  · rw [h1]
    show some ((mem.messages.map reloadMessage).map ConversationMessage.role) =
      some (mem.messages.map ConversationMessage.role)
    rw [List.map_map]
    rfl
  · rw [h1]
    show some
        ((mem.messages.map reloadMessage).map ConversationMessage.content) =
      some (mem.messages.map ConversationMessage.content)
    rw [List.map_map]
    rfl
  · rw [h1]
    show some
        ((mem.messages.map reloadMessage).map ConversationMessage.timestamp) =
      some (mem.messages.map ConversationMessage.timestamp)
    rw [List.map_map]
    rfl
  · rw [h1]
    rfl
  · rw [h1]
    rfl

/-! Lemmas about the tool-execution loop. -/

theorem executeToolsGo_unknown (registry : List (String × ToolImpl))
    (parameters : List (String × Ctx)) (times : Nat → Int × Int)
    (name : String) (habs : dictGet name registry = none) :
    ∀ (rest : List String) (i : Nat) (results : List (String × ResultDict)),
      (name ∈ rest ∨ dictGet name results =
        some { success := false, error := some ("Unknown tool: " ++ name) }) →
      dictGet name (executeToolsGo registry parameters times i results rest) =
        some { success := false, error := some ("Unknown tool: " ++ name) } := by
  intro rest
  induction rest with
  | nil =>
      intro i results h
      rcases h with h | h
      · simp at h
      · simpa [executeToolsGo] using h
  | cons hd tl ih =>
      intro i results h
      simp only [executeToolsGo]
      by_cases heq : hd = name
      · subst heq
        rw [habs]
        apply ih
        right
        exact dictGet_insert_self results hd _
      · apply ih
        rcases h with h | h
        · rcases List.mem_cons.mp h with h2 | h2
          · exact absurd h2.symm heq
          · exact Or.inl h2
        · right
          rw [dictGet_insert_other results hd name _ heq]
          exact h

theorem executeToolsGo_covers (registry : List (String × ToolImpl))
    (parameters : List (String × Ctx)) (times : Nat → Int × Int) :
    ∀ (rest : List String) (i : Nat) (results : List (String × ResultDict))
      (n : String),
      (n ∈ rest ∨ (dictGet n results).isSome = true) →
      (dictGet n
        (executeToolsGo registry parameters times i results rest)).isSome =
        true := by
  intro rest
  induction rest with
  | nil =>
      intro i results n h
      rcases h with h | h
      · simp at h
      · simpa [executeToolsGo] using h
  | cons hd tl ih =>
      intro i results n h
      simp only [executeToolsGo]
      apply ih
      rcases h with h | h
      · rcases List.mem_cons.mp h with h2 | h2
        · subst h2
          right
          rw [dictGet_insert_self]
          rfl
        · exact Or.inl h2
      · right
        exact dictGet_isSome_insert_mono results hd n _ h

theorem executeToolsGo_keys (registry : List (String × ToolImpl))
    (parameters : List (String × Ctx)) (times : Nat → Int × Int) :
    ∀ (rest : List String) (i : Nat) (results : List (String × ResultDict)),
      dictKeys (executeToolsGo registry parameters times i results rest) =
        rest.foldl (fun ks n => if n ∈ ks then ks else ks ++ [n])
          (dictKeys results) := by
  intro rest
  induction rest with
  | nil =>
      intro i results
      rfl
  | cons hd tl ih =>
      intro i results
      simp only [executeToolsGo, List.foldl_cons]
      rw [ih, dictKeys_insert]

/-- **C5**: when the analysis requests a tool name that is not registered,
`process_request` still completes the turn: the per-tool results map binds
that name to `{success: false, error: "Unknown tool: <name>"}`, every other
requested tool still gets an entry (the loop continues, keyed in
first-occurrence request order), and the returned `AgentResponse` has its
top-level `success` flag `true`. -/
theorem process_request_unknown_tool_nonfatal
    (registry : List (String × ToolImpl)) (analyze : String → Analysis)
    (generate : String → Analysis → List (String × ResultDict) → String)
    (mem : ConversationMemory) (user_input : String) (context : Option Ctx)
    (now : Int) (times : Nat → Int × Int) (name : String)
    (hneed : name ∈ (analyze user_input).tools_needed)
    (habs : dictGet name registry = none) :
    (process_request registry analyze generate mem user_input context now
        times).1.success = true ∧
    (process_request registry analyze generate mem user_input context now
        times).1.tool_results =
      some (execute_tools registry (analyze user_input).tools_needed
        (analyze user_input).parameters times) ∧
    dictGet name
        (((process_request registry analyze generate mem user_input context
          now times).1.tool_results).getD []) =
      some { success := false, error := some ("Unknown tool: " ++ name) } ∧
    (∀ n, n ∈ (analyze user_input).tools_needed →
      (dictGet n
        (((process_request registry analyze generate mem user_input context
          now times).1.tool_results).getD [])).isSome = true) ∧
    dictKeys
        (((process_request registry analyze generate mem user_input context
          now times).1.tool_results).getD []) =
      firstOccurrences (analyze user_input).tools_needed := by
  have hne : (analyze user_input).tools_needed ≠ [] := by
    intro h0
    rw [h0] at hneed
    simp at hneed
  have htr : (process_request registry analyze generate mem user_input context
      now times).1.tool_results =
      some (execute_tools registry (analyze user_input).tools_needed
        (analyze user_input).parameters times) := by
    show some (if (analyze user_input).tools_needed = [] then []
        else execute_tools registry (analyze user_input).tools_needed
          (analyze user_input).parameters times) = _
    rw [if_neg hne]
  refine ⟨rfl, htr, ?_, ?_, ?_⟩
  · rw [htr]
    exact executeToolsGo_unknown registry (analyze user_input).parameters
      times name habs (analyze user_input).tools_needed 0 [] (Or.inl hneed)
  · intro n hn
    rw [htr]
    exact executeToolsGo_covers registry (analyze user_input).parameters
      times (analyze user_input).tools_needed 0 [] n (Or.inl hn)
  · rw [htr]
    show dictKeys (executeToolsGo registry (analyze user_input).parameters
      times 0 [] (analyze user_input).tools_needed) = _
    rw [executeToolsGo_keys]
    rfl

/-- **C5 witness**: the registry holding only `echo`, an analysis requesting
`does_not_exist` and then `echo`. -/
theorem process_request_unknown_tool_nonfatal_witness :
    ("does_not_exist" ∈ (analyzeMissing "hi").tools_needed) ∧
    (dictGet "does_not_exist" regEcho = none) ∧
    ((process_request regEcho analyzeMissing generateConst memOne "hi" none 0
        (fun _ => (0, 0))).1.success = true ∧
      (process_request regEcho analyzeMissing generateConst memOne "hi" none 0
          (fun _ => (0, 0))).1.tool_results =
        some (execute_tools regEcho (analyzeMissing "hi").tools_needed
          (analyzeMissing "hi").parameters (fun _ => (0, 0))) ∧
      dictGet "does_not_exist"
          (((process_request regEcho analyzeMissing generateConst memOne "hi"
            none 0 (fun _ => (0, 0))).1.tool_results).getD []) =
        some { success := false,
               error := some ("Unknown tool: " ++ "does_not_exist") } ∧
      (∀ n, n ∈ (analyzeMissing "hi").tools_needed →
        (dictGet n
          (((process_request regEcho analyzeMissing generateConst memOne "hi"
            none 0 (fun _ => (0, 0))).1.tool_results).getD [])).isSome =
          true) ∧
      dictKeys
          (((process_request regEcho analyzeMissing generateConst memOne "hi"
            none 0 (fun _ => (0, 0))).1.tool_results).getD []) =
        firstOccurrences (analyzeMissing "hi").tools_needed) :=
  ⟨by decide, rfl,
   process_request_unknown_tool_nonfatal regEcho analyzeMissing generateConst
     memOne "hi" none 0 (fun _ => (0, 0)) "does_not_exist" (by decide) rfl⟩
